import Mathlib

/-!
Shallow embedding of the Bloomfall evolutionary-simulation core
(NeuralNetwork.js, genetique.js, creature.js, CreatureSystem.js).

JS numbers are modelled as real numbers.  Calls to Math.random() are
modelled by explicit oracle arguments (each draw is a real assumed to lie
in [0,1) where a theorem needs it).  Scene-graph objects (THREE meshes,
groups, materials) carry no simulation state other than the visibility
flag set by CreatureSystem.update, which is modelled as a boolean field.
-/

open scoped Classical

/-! ## NeuralNetwork.js -/

/-- The accumulation loop pattern used by NeuralNetwork.compute:
starting from 0, add f i for i = 0, 1, ..., n-1. -/
def sumLoop (n : ℕ) (f : ℕ → ℝ) : ℝ :=
  (List.range n).foldl (fun acc i => acc + f i) 0

/-- A feed-forward network: nbInput counts the bias unit (the JS constructor
stores nbInput + 1), and the two weight matrices are total functions,
defined at least on the index ranges the loops of compute touch. -/
structure NeuralNetwork where
  nbInput : ℕ
  nbHidden : ℕ
  nbOutput : ℕ
  w1 : ℕ → ℕ → ℝ
  w2 : ℕ → ℕ → ℝ

/-- The JS constructor: adds the bias slot to the declared input count and
stores the weight matrices. -/
def NeuralNetwork.make (nIn nHid nOut : ℕ) (w1 w2 : ℕ → ℕ → ℝ) : NeuralNetwork :=
  ⟨nIn + 1, nHid, nOut, w1, w2⟩

/-- The activation used by the network; the method named sigmoid in the
source returns Math.tanh. -/
noncomputable def NeuralNetwork.sigmoid (x : ℝ) : ℝ := Real.tanh x

/-- NeuralNetwork.compute: on an input-length mismatch, return the all-zero
output vector; otherwise append the bias 1, then run the two
weighted-sum-then-activation loops. -/
noncomputable def NeuralNetwork.compute (net : NeuralNetwork) (inputs : List ℝ) : List ℝ :=
  if inputs.length ≠ net.nbInput - 1 then
    List.replicate net.nbOutput 0
  else
    let inputLayer := inputs ++ [1]
    let hidden := (List.range net.nbHidden).map fun j =>
      NeuralNetwork.sigmoid (sumLoop net.nbInput fun i => inputLayer.getD i 0 * net.w1 i j)
    (List.range net.nbOutput).map fun k =>
      NeuralNetwork.sigmoid (sumLoop net.nbHidden fun j => hidden.getD j 0 * net.w2 j k)

/-- Whether compute takes its console.error branch (the only error signal
the method emits); compute itself is a total function, so no call throws. -/
def NeuralNetwork.computeSignalsError (net : NeuralNetwork) (inputs : List ℝ) : Bool :=
  inputs.length ≠ net.nbInput - 1

/-- Reference feed-forward semantics, stated from the specification text:
input layer = inputs with a constant bias unit 1 appended; hidden unit j =
tanh of the w1-weighted sum over the input layer; output k = tanh of the
w2-weighted sum over the hidden layer. -/
noncomputable def feedforwardReference (net : NeuralNetwork) (inputs : List ℝ) : List ℝ :=
  let inputLayer := inputs ++ [1]
  let hidden : ℕ → ℝ := fun j =>
    Real.tanh (∑ i ∈ Finset.range net.nbInput, inputLayer.getD i 0 * net.w1 i j)
  (List.range net.nbOutput).map fun k =>
    Real.tanh (∑ j ∈ Finset.range net.nbHidden, hidden j * net.w2 j k)

lemma foldl_add_eq (f : ℕ → ℝ) : ∀ (l : List ℕ) (a : ℝ),
    l.foldl (fun acc i => acc + f i) a = a + (l.map f).sum := by
  intro l
  induction l with
  | nil => simp
  | cons x xs ih => intro a; simp [ih, add_assoc]

lemma sum_map_range (f : ℕ → ℝ) : ∀ n, ((List.range n).map f).sum = ∑ i ∈ Finset.range n, f i := by
  intro n
  induction n with
  | zero => simp
  | succ n ih => rw [List.range_succ]; simp [ih, Finset.sum_range_succ]

lemma sumLoop_eq_sum (n : ℕ) (f : ℕ → ℝ) : sumLoop n f = ∑ i ∈ Finset.range n, f i := by
  rw [sumLoop, foldl_add_eq, sum_map_range, zero_add]

lemma tanh_lt_one (x : ℝ) : Real.tanh x < 1 := by
  rw [Real.tanh_eq_sinh_div_cosh, div_lt_one (Real.cosh_pos x), Real.sinh_eq, Real.cosh_eq]
  have h := Real.exp_pos (-x)
  linarith

lemma neg_one_lt_tanh (x : ℝ) : -1 < Real.tanh x := by
  rw [Real.tanh_eq_sinh_div_cosh, lt_div_iff₀ (Real.cosh_pos x), Real.sinh_eq, Real.cosh_eq]
  have h := Real.exp_pos x
  linarith

/-- C4: on any input vector whose length differs from the declared input
count N = nbInput - 1, compute signals an error and returns the all-zero
vector of length nbOutput; the embedding of compute is a total function,
so no input length makes it throw. -/
theorem compute_wrong_length_all_zero (net : NeuralNetwork) (inputs : List ℝ)
    (h : inputs.length ≠ net.nbInput - 1) :
    net.compute inputs = List.replicate net.nbOutput 0 ∧
    net.computeSignalsError inputs = true := by
  constructor
  · rw [NeuralNetwork.compute, if_pos h]
  · simp [NeuralNetwork.computeSignalsError, h]

theorem compute_wrong_length_all_zero_witness :
    ([(0 : ℝ), 0, 0].length ≠ (NeuralNetwork.make 5 4 2 (fun _ _ => 0) (fun _ _ => 0)).nbInput - 1) ∧
    (NeuralNetwork.make 5 4 2 (fun _ _ => 0) (fun _ _ => 0)).compute [(0 : ℝ), 0, 0] =
      List.replicate 2 0 ∧
    (NeuralNetwork.make 5 4 2 (fun _ _ => 0) (fun _ _ => 0)).computeSignalsError [(0 : ℝ), 0, 0] =
      true := by
  refine ⟨by simp [NeuralNetwork.make], ?_⟩
  exact compute_wrong_length_all_zero _ _ (by simp [NeuralNetwork.make])

/-- C5: on any input vector of the correct length, compute agrees with the
reference feed-forward definition, and every returned output lies strictly
between -1 and 1. -/
theorem compute_eq_reference (net : NeuralNetwork) (inputs : List ℝ)
    (h : inputs.length = net.nbInput - 1) :
    net.compute inputs = feedforwardReference net inputs ∧
    ∀ y ∈ net.compute inputs, -1 < y ∧ y < 1 := by
  have hcond : ¬ inputs.length ≠ net.nbInput - 1 := by simp [h]
  constructor
  · rw [NeuralNetwork.compute, if_neg hcond, feedforwardReference]
    simp only [NeuralNetwork.sigmoid]
    apply List.map_congr_left
    intro k _
    congr 1
    rw [sumLoop_eq_sum]
    apply Finset.sum_congr rfl
    intro j hj
    rw [Finset.mem_range] at hj
    congr 1
    rw [List.getD_eq_getElem?_getD]
    simp [List.getElem?_map, List.getElem?_range hj, sumLoop_eq_sum]
  · intro y hy
    rw [NeuralNetwork.compute, if_neg hcond] at hy
    simp only [List.mem_map] at hy
    obtain ⟨k, _, rfl⟩ := hy
    exact ⟨neg_one_lt_tanh _, tanh_lt_one _⟩

theorem compute_eq_reference_witness :
    (([(0 : ℝ), 0, 0, 0, 0] : List ℝ).length =
      (NeuralNetwork.make 5 4 2 (fun _ _ => 0) (fun _ _ => 0)).nbInput - 1) ∧
    (NeuralNetwork.make 5 4 2 (fun _ _ => 0) (fun _ _ => 0)).compute [(0 : ℝ), 0, 0, 0, 0] =
      feedforwardReference (NeuralNetwork.make 5 4 2 (fun _ _ => 0) (fun _ _ => 0))
        [(0 : ℝ), 0, 0, 0, 0] := by
  refine ⟨by simp [NeuralNetwork.make], ?_⟩
  exact (compute_eq_reference _ _ (by simp [NeuralNetwork.make])).1

/-! ## genetique.js -/

/-- One individual of the genetic population: its genes and its fitness
slot; none models the JS undefined state the field has before
CreatureSystem first writes it. -/
structure Individual where
  genes : List ℝ
  fitness : Option ℕ

/-- Default used to model JS out-of-range array reads where an invariant
keeps them from happening. -/
def dIndividual : Individual := ⟨[], none⟩

structure Genetic where
  populationSize : ℕ
  geneCount : ℕ
  generation : ℕ
  individuals : List Individual

/-- The Genetic constructor plus initRandom: generation 0 and populationSize
fresh individuals of geneCount genes each; draw i k is the k-th uniform
draw of the i-th individual. -/
def Genetic.initRandom (populationSize geneCount : ℕ) (draw : ℕ → ℕ → ℝ) : Genetic :=
  ⟨populationSize, geneCount, 0,
    (List.range populationSize).map fun i => ⟨(List.range geneCount).map (draw i), none⟩⟩

/-- Single-point crossover at a given cut: gene i is a's when i < cut and
b's otherwise. -/
def crossoverAt (geneCount cut : ℕ) (a b : List ℝ) : List ℝ :=
  (List.range geneCount).map fun i => if i < cut then a.getD i 0 else b.getD i 0

/-- Genetic.crossover: the cut index is Math.floor(r * geneCount) for the
uniform draw r. -/
noncomputable def Genetic.crossover (g : Genetic) (r : ℝ) (a b : List ℝ) : List ℝ :=
  crossoverAt g.geneCount ⌊r * (g.geneCount : ℝ)⌋₊ a b

/-- Math.min(1, Math.max(0, x)). -/
noncomputable def clamp01 (x : ℝ) : ℝ := min 1 (max 0 x)

/-- One gene's mutation step: when the selection draw falls below rate, add
the perturbation (rDelta - 0.5) * 2 * amount and clamp into [0,1]. -/
noncomputable def mutateGene (rate amount rSel rDelta x : ℝ) : ℝ :=
  if rSel < rate then clamp01 (x + (rDelta - 0.5) * 2 * amount) else x

/-- Genetic.mutate: clone the genes and run the per-gene loop; gene i uses
the selection draw rSel i and the perturbation draw rDelta i. -/
noncomputable def Genetic.mutate (genes : List ℝ) (rate amount : ℝ)
    (rSel rDelta : ℕ → ℝ) : List ℝ :=
  (List.range genes.length).map fun i =>
    mutateGene rate amount (rSel i) (rDelta i) (genes.getD i 0)

/-- The independent Math.random() draws one nextGeneration call consumes,
split by call site. -/
structure RandOracle where
  fallback : ℕ → ℝ
  elitePick : ℝ
  parentA : ℕ → ℝ
  parentB : ℕ → ℝ
  cutDraw : ℕ → ℝ
  mutSel : ℕ → ℕ → ℝ
  mutDelta : ℕ → ℕ → ℝ

/-- The index list nextGeneration breeds from: the argument, or three
random indices into the current population when the argument is empty. -/
noncomputable def Genetic.selIndices (g : Genetic) (selected : List ℕ) (o : RandOracle) : List ℕ :=
  if selected.length = 0 then
    (List.range 3).map fun i => ⌊o.fallback i * (g.individuals.length : ℝ)⌋₊
  else selected

/-- The breeding pool: the genes of the individuals at the bred indices. -/
noncomputable def Genetic.breedingPool (g : Genetic) (selected : List ℕ)
    (o : RandOracle) : List (List ℝ) :=
  (g.selIndices selected o).map fun i => (g.individuals.getD i dIndividual).genes

/-- The k-th child the while loop pushes: two parents sampled uniformly with
replacement from the pool, crossover, then mutation with the hard-coded
rate 0.08 and amount 0.12. -/
noncomputable def Genetic.child (g : Genetic) (pool : List (List ℝ))
    (o : RandOracle) (k : ℕ) : List ℝ :=
  let A := pool.getD ⌊o.parentA k * (pool.length : ℝ)⌋₊ []
  let B := pool.getD ⌊o.parentB k * (pool.length : ℝ)⌋₊ []
  Genetic.mutate (g.crossover (o.cutDraw k) A B) 0.08 0.12 (o.mutSel k) (o.mutDelta k)

/-- Genetic.nextGeneration: build the pool, push one verbatim elite copy,
fill the remaining populationSize - 1 slots with children, replace the
population wholesale and increment the generation counter. -/
noncomputable def Genetic.nextGeneration (g : Genetic) (selected : List ℕ)
    (o : RandOracle) : Genetic :=
  let pool := g.breedingPool selected o
  let elite := pool.getD ⌊o.elitePick * (pool.length : ℝ)⌋₊ []
  let newPop := elite :: (List.range (g.populationSize - 1)).map (g.child pool o)
  { g with individuals := newPop.map fun gs => ⟨gs, none⟩,
           generation := g.generation + 1 }

lemma range_map_getD_eq {l : List ℝ} {n : ℕ} (h : l.length = n) :
    (List.range n).map (fun i => l.getD i 0) = l := by
  apply List.ext_getElem
  · simp [h]
  · intro i h1 h2
    simp only [List.length_map, List.length_range] at h1
    simp [List.getD_eq_getElem?_getD, List.getElem?_eq_getElem h2]

/-- C3: nextGeneration returns exactly populationSize individuals (the
elite plus populationSize - 1 children) and increments the generation
counter by exactly 1; an empty selection falls back to a breeding pool
built from 3 random indices of the current population (so the pool is
never empty), each index in range when the draws lie in [0,1); initRandom
also yields exactly populationSize individuals. -/
theorem nextGeneration_population_size (g : Genetic) (selected : List ℕ) (o : RandOracle)
    (hp : 1 ≤ g.populationSize) :
    (g.nextGeneration selected o).individuals.length = g.populationSize ∧
    (g.nextGeneration selected o).generation = g.generation + 1 ∧
    (selected = [] → (g.breedingPool selected o).length = 3) ∧
    (selected = [] → 0 < g.individuals.length →
      (∀ i, 0 ≤ o.fallback i ∧ o.fallback i < 1) →
      ∀ idx ∈ g.selIndices selected o, idx < g.individuals.length) ∧
    (∀ (p gc : ℕ) (draw : ℕ → ℕ → ℝ),
      (Genetic.initRandom p gc draw).individuals.length = p) := by
  refine ⟨?_, rfl, ?_, ?_, ?_⟩
  · simp only [Genetic.nextGeneration, List.length_map, List.length_cons, List.length_range]
    omega
  · intro hsel
    simp [Genetic.breedingPool, Genetic.selIndices, hsel]
  · intro hsel hpos hdraw idx hidx
    rw [Genetic.selIndices, if_pos (by simp [hsel])] at hidx
    rw [List.mem_map] at hidx
    obtain ⟨i, _, rfl⟩ := hidx
    have h0 := (hdraw i).1
    have h1 := (hdraw i).2
    have hmul : o.fallback i * (g.individuals.length : ℝ) < (g.individuals.length : ℝ) := by
      have : (0 : ℝ) < (g.individuals.length : ℝ) := by exact_mod_cast hpos
      nlinarith
    exact (Nat.floor_lt (by positivity)).2 hmul
  · intro p gc draw
    simp [Genetic.initRandom]

theorem nextGeneration_population_size_witness :
    (Genetic.nextGeneration ⟨4, 10, 0, [dIndividual, dIndividual]⟩ []
      ⟨fun _ => 0, 0, fun _ => 0, fun _ => 0, fun _ => 0, fun _ _ => 0,
        fun _ _ => 0⟩).individuals.length = 4 :=
  (nextGeneration_population_size ⟨4, 10, 0, [dIndividual, dIndividual]⟩ []
    ⟨fun _ => 0, 0, fun _ => 0, fun _ => 0, fun _ => 0, fun _ _ => 0, fun _ _ => 0⟩
    (by norm_num)).1

lemma crossoverAt_cut_five (a b : List ℝ) (ha : a.length = 10) (hb : b.length = 10) :
    crossoverAt 10 5 a b = a.take 5 ++ b.drop 5 := by
  apply List.ext_getElem
  · simp [crossoverAt, ha, hb]
  · intro i h1 h2
    simp only [crossoverAt, List.length_map, List.length_range] at h1
    simp only [crossoverAt]
    rw [List.getElem_map, List.getElem_range]
    by_cases h5 : i < 5
    · rw [if_pos h5, List.getElem_append_left (by simp [ha]; omega), List.getElem_take]
      simp [List.getD_eq_getElem?_getD, List.getElem?_eq_getElem (show i < a.length by omega)]
    · rw [if_neg h5, List.getElem_append_right (by simp [ha]; omega), List.getElem_drop]
      have hidx : 5 + (i - (a.take 5).length) = i := by simp [ha]; omega
      simp only [hidx]
      simp [List.getD_eq_getElem?_getD, List.getElem?_eq_getElem (show i < b.length by omega)]

/-- C6: Genetic.crossover is single-point crossover at the cut
Math.floor(r * geneCount); for r in [0,1) the cut lies in [0, geneCount);
for every cut, gene i is taken from a when i < cut and from b otherwise;
cut = 0 gives a child equal to b, cut = geneCount gives a child equal to
a, and cut = 5 on 10-gene parents gives genes 0..4 from a and 5..9 from
b exactly. -/
theorem crossover_single_point (g : Genetic) (a b : List ℝ) (r : ℝ)
    (ha : a.length = g.geneCount) (hb : b.length = g.geneCount)
    (hr0 : 0 ≤ r) (hr1 : r < 1) (hgc : 0 < g.geneCount) :
    g.crossover r a b = crossoverAt g.geneCount ⌊r * (g.geneCount : ℝ)⌋₊ a b ∧
    ⌊r * (g.geneCount : ℝ)⌋₊ < g.geneCount ∧
    (∀ cut i, i < g.geneCount →
      (crossoverAt g.geneCount cut a b).getD i 0 =
        if i < cut then a.getD i 0 else b.getD i 0) ∧
    crossoverAt g.geneCount 0 a b = b ∧
    crossoverAt g.geneCount g.geneCount a b = a ∧
    (g.geneCount = 10 → crossoverAt 10 5 a b = a.take 5 ++ b.drop 5) := by
  refine ⟨rfl, ?_, ?_, ?_, ?_, ?_⟩
  · have hcast : (0 : ℝ) < (g.geneCount : ℝ) := by exact_mod_cast hgc
    have hmul : r * (g.geneCount : ℝ) < (g.geneCount : ℝ) := by nlinarith
    exact (Nat.floor_lt (by positivity)).2 hmul
  · intro cut i hi
    rw [crossoverAt, List.getD_eq_getElem?_getD, List.getElem?_map, List.getElem?_range hi]
    rfl
  · rw [crossoverAt]
    simp only [Nat.not_lt_zero, if_false]
    exact range_map_getD_eq hb
  · rw [crossoverAt]
    rw [List.map_congr_left (fun i hi => if_pos (List.mem_range.mp hi))]
    exact range_map_getD_eq ha
  · intro h10
    exact crossoverAt_cut_five a b (ha.trans h10) (hb.trans h10)

theorem crossover_single_point_witness :
    crossoverAt (Genetic.mk 24 10 0 []).geneCount 0 [(0 : ℝ), 1, 2, 3, 4, 5, 6, 7, 8, 9]
      [(10 : ℝ), 11, 12, 13, 14, 15, 16, 17, 18, 19] =
      [(10 : ℝ), 11, 12, 13, 14, 15, 16, 17, 18, 19] :=
  (crossover_single_point (Genetic.mk 24 10 0 []) _ _ 0 (by norm_num) (by norm_num)
    (by norm_num) (by norm_num) (by norm_num)).2.2.2.1

def allInUnit (l : List ℝ) : Prop := ∀ x ∈ l, 0 ≤ x ∧ x ≤ 1

lemma clamp01_mem (x : ℝ) : 0 ≤ clamp01 x ∧ clamp01 x ≤ 1 :=
  ⟨le_min (by norm_num) (le_max_left 0 x), min_le_left 1 _⟩

lemma getD_mem_of_lt {l : List ℝ} {i : ℕ} (h : i < l.length) : l.getD i 0 ∈ l := by
  have heq : l.getD i 0 = l[i] := by
    simp [List.getD_eq_getElem?_getD, List.getElem?_eq_getElem h]
  rw [heq]
  exact List.getElem_mem h

lemma mutate_allInUnit (genes : List ℝ) (rate amount : ℝ) (rSel rDelta : ℕ → ℝ)
    (h : allInUnit genes) : allInUnit (Genetic.mutate genes rate amount rSel rDelta) := by
  intro x hx
  rw [Genetic.mutate, List.mem_map] at hx
  obtain ⟨i, hi, rfl⟩ := hx
  rw [List.mem_range] at hi
  rw [mutateGene]
  split
  · exact clamp01_mem _
  · exact h _ (getD_mem_of_lt hi)

lemma mutate_rate_zero (genes : List ℝ) (amount : ℝ) (rSel rDelta : ℕ → ℝ)
    (h : ∀ i, 0 ≤ rSel i) : Genetic.mutate genes 0 amount rSel rDelta = genes := by
  rw [Genetic.mutate]
  have hgene : ∀ i, mutateGene 0 amount (rSel i) (rDelta i) (genes.getD i 0) = genes.getD i 0 := by
    intro i; rw [mutateGene, if_neg (not_lt.mpr (h i))]
  simp only [hgene]
  exact range_map_getD_eq rfl

lemma foldl_mutate_allInUnit (steps : List ((ℝ × ℝ) × ((ℕ → ℝ) × (ℕ → ℝ)))) :
    ∀ genes, allInUnit genes →
      allInUnit (steps.foldl (fun gs st => Genetic.mutate gs st.1.1 st.1.2 st.2.1 st.2.2) genes) := by
  induction steps with
  | nil => intro genes h; simpa using h
  | cons st rest ih =>
      intro genes h
      rw [List.foldl_cons]
      exact ih _ (mutate_allInUnit _ _ _ _ _ h)

/-- C7: mutate perturbs gene i exactly when its selection draw falls below
rate, adding a perturbation bounded by amount and clamping to [0,1], and
leaves unselected genes unchanged; with rate 0 it is the identity (the
selection draws of Math.random() are nonnegative); genes all in [0,1] stay
in [0,1], and the clamp invariant persists over any sequence of further
mutate applications. -/
theorem mutate_clamp_and_identity (genes : List ℝ) (rate amount : ℝ) (rSel rDelta : ℕ → ℝ) :
    ((∀ i, 0 ≤ rSel i) → Genetic.mutate genes 0 amount rSel rDelta = genes) ∧
    (∀ i, i < genes.length →
      (Genetic.mutate genes rate amount rSel rDelta).getD i 0 =
        if rSel i < rate then clamp01 (genes.getD i 0 + (rDelta i - 0.5) * 2 * amount)
        else genes.getD i 0) ∧
    (0 ≤ amount → ∀ i, 0 ≤ rDelta i → rDelta i ≤ 1 →
      |(rDelta i - 0.5) * 2 * amount| ≤ amount) ∧
    (allInUnit genes → allInUnit (Genetic.mutate genes rate amount rSel rDelta)) ∧
    (allInUnit genes → ∀ steps : List ((ℝ × ℝ) × ((ℕ → ℝ) × (ℕ → ℝ))),
      allInUnit (steps.foldl
        (fun gs st => Genetic.mutate gs st.1.1 st.1.2 st.2.1 st.2.2) genes)) := by
  refine ⟨mutate_rate_zero genes amount rSel rDelta, ?_, ?_, mutate_allInUnit genes _ _ _ _, ?_⟩
  · intro i hi
    rw [Genetic.mutate, List.getD_eq_getElem?_getD, List.getElem?_map, List.getElem?_range hi]
    simp [mutateGene]
  · intro ha i h0 h1
    rcases abs_cases ((rDelta i - 0.5) * 2 * amount) with ⟨heq, _⟩ | ⟨heq, _⟩ <;> rw [heq] <;>
      nlinarith [mul_nonneg ha h0, mul_nonneg ha (sub_nonneg.mpr h1)]
  · intro h steps
    exact foldl_mutate_allInUnit steps genes h

theorem mutate_clamp_and_identity_witness :
    Genetic.mutate [(1 : ℝ) / 2] 0 1 (fun _ => 0) (fun _ => 0) = [(1 : ℝ) / 2] :=
  (mutate_clamp_and_identity [(1 : ℝ) / 2] 0 1 (fun _ => 0) (fun _ => 0)).1
    (fun _ => le_refl 0)

/-! ## creature.js -/

/-- Runtime state of one creature: genes, 2D position (x, y), heading,
scalar speed, energy, its brain, and the environment fields the system
writes before each update.  The write-only display field angleToFood and
the mesh geometry are omitted: nothing reads them back into the
simulation. -/
structure Creature where
  genes : List ℝ
  energy : ℝ
  speed : ℝ
  angle : ℝ
  x : ℝ
  y : ℝ
  brain : NeuralNetwork
  distanceFood : ℝ
  distanceWall : ℝ
  speedX : ℝ
  speedY : ℝ

/-- The Creature constructor: energy 100, speed 0, angle 0, origin
position, zeroed sensor fields, and the supplied brain (a 5-4-2 network;
random weights when no genome is passed). -/
def Creature.init (genes : List ℝ) (brain : NeuralNetwork) : Creature :=
  ⟨genes, 100, 0, 0, 0, 0, brain, 0, 0, 0, 0⟩

/-- Creature.update: feed the five sensors to the brain, steer by
output 0, accelerate by output 1, Euler-integrate the position, record the
velocity components, and pay the energy cost 0.02 + |speed| * 0.002. -/
noncomputable def Creature.update (c : Creature) (dt : ℝ) : Creature :=
  let outputs := c.brain.compute [c.distanceFood, c.distanceWall, c.speedX, c.speedY, c.energy]
  let angle := c.angle + outputs.getD 0 0 * 0.1
  let speed := c.speed + outputs.getD 1 0 * 0.01
  let vx := Real.cos angle * speed
  let vy := Real.sin angle * speed
  { c with
    angle := angle
    speed := speed
    x := c.x + vx * dt
    y := c.y + vy * dt
    speedX := vx
    speedY := vy
    energy := c.energy - (0.02 + |speed| * 0.002) }

/-! ## CreatureSystem.js -/

/-- One food item: logical 2D position and the active flag (the mesh
visibility mirrors the flag). -/
structure Food where
  x : ℝ
  z : ℝ
  active : Bool

def dFood : Food := ⟨0, 0, false⟩

/-- One entry of the creatures array: the logic object, the stable index
linking it to its Individual, its fitness counter, and the mesh visibility
flag. -/
structure CreatureRec where
  logic : Creature
  index : ℕ
  fitness : ℕ
  visible : Bool

def dCreatureRec : CreatureRec :=
  ⟨Creature.init [] (NeuralNetwork.make 5 4 2 (fun _ _ => 0) (fun _ _ => 0)), 0, 0, true⟩

/-- The CreatureSystem state the simulation reads and writes. -/
structure CreatureSystem where
  worldSize : ℝ
  creatures : List CreatureRec
  foods : List Food
  genetic : Genetic

/-- Euclidean distance from a food item to the point (x, z), as computed in
getNearestFood. -/
noncomputable def distTo (f : Food) (x z : ℝ) : ℝ :=
  Real.sqrt ((f.x - x) ^ 2 + (f.z - z) ^ 2)

/-- The linear scan of getNearestFood: walk the indexed food list keeping
the strictly closest active item seen so far. -/
noncomputable def nearestFoodGo (x z : ℝ) : List (ℕ × Food) → Option (ℝ × ℕ) → Option (ℝ × ℕ)
  | [], best => best
  | (i, f) :: rest, best =>
      if f.active then
        match best with
        | none => nearestFoodGo x z rest (some (distTo f x z, i))
        | some b =>
            if distTo f x z < b.1 then nearestFoodGo x z rest (some (distTo f x z, i))
            else nearestFoodGo x z rest (some b)
      else nearestFoodGo x z rest best

/-- CreatureSystem.getNearestFood: none when no food item is active,
otherwise the distance and index of the nearest active item. -/
noncomputable def getNearestFood (foods : List Food) (x z : ℝ) : Option (ℝ × ℕ) :=
  nearestFoodGo x z foods.enum none

/-- The three mutations eatFood applies to the consumed item, in source
order: deactivate, move to the fresh random position, reactivate. -/
def eatFoodRelocate (f : Food) (newX newZ : ℝ) : Food :=
  let f1 : Food := { f with active := false }
  let f2 : Food := { f1 with x := newX, z := newZ }
  { f2 with active := true }

/-- One creature's slice of a CreatureSystem.update tick, in source order:
nearest-food scan at the pre-move position, sensor write, Creature.update
with dt * 20, the hard position clamp into the arena, the consumption test
against the pickup radius 1.5 (on success: +30 energy, fitness + 1 written
through to the Individual, food relocation), and the visibility cut when
the post-tick energy is at most 0.  Returns the updated record, food pool
and individuals. -/
noncomputable def stepCreature (halfSize dt : ℝ) (foods : List Food) (inds : List Individual)
    (c : CreatureRec) (newX newZ : ℝ) : CreatureRec × List Food × List Individual :=
  let target := getNearestFood foods c.logic.x c.logic.y
  let l0 := { c.logic with distanceFood := match target with | some t => t.1 | none => 100 }
  let l1 := l0.update (dt * 20)
  let l2 := { l1 with x := max (-halfSize) (min halfSize l1.x),
                      y := max (-halfSize) (min halfSize l1.y) }
  match target with
  | some t =>
      if t.1 < 1.5 then
        let l3 := { l2 with energy := l2.energy + 30 }
        (⟨l3, c.index, c.fitness + 1, if l3.energy ≤ 0 then false else c.visible⟩,
         foods.set t.2 (eatFoodRelocate (foods.getD t.2 dFood) newX newZ),
         inds.set c.index { inds.getD c.index dIndividual with fitness := some (c.fitness + 1) })
      else
        (⟨l2, c.index, c.fitness, if l2.energy ≤ 0 then false else c.visible⟩, foods, inds)
  | none =>
      (⟨l2, c.index, c.fitness, if l2.energy ≤ 0 then false else c.visible⟩, foods, inds)

/-- The sequential forEach of CreatureSystem.update: creatures are
processed in array order, each seeing the food pool and individuals as
left by its predecessors; rng k supplies the random relocation position
consumed if creature k eats. -/
noncomputable def updateGo (halfSize dt : ℝ) (rng : ℕ → ℝ × ℝ) :
    ℕ → List CreatureRec → List Food → List Individual →
    List CreatureRec × List Food × List Individual
  | _, [], foods, inds => ([], foods, inds)
  | k, c :: cs, foods, inds =>
      let r := stepCreature halfSize dt foods inds c (rng k).1 (rng k).2
      let rest := updateGo halfSize dt rng (k + 1) cs r.2.1 r.2.2
      (r.1 :: rest.1, rest.2.1, rest.2.2)

/-- CreatureSystem.update: one synchronous tick over all creatures with the
border margin halfSize = worldSize / 2 - 2. -/
noncomputable def CreatureSystem.update (s : CreatureSystem) (dt : ℝ)
    (rng : ℕ → ℝ × ℝ) : CreatureSystem :=
  let r := updateGo (s.worldSize / 2 - 2) dt rng 0 s.creatures s.foods s.genetic.individuals
  { s with creatures := r.1, foods := r.2.1,
           genetic := { s.genetic with individuals := r.2.2 } }

/-- CreatureSystem.createGeneration: discard the creatures array, build one
creature per Individual (index = array position, fitness 0, fresh mesh so
visible) at a random spawn position, and reset every Individual's fitness
to 0.  posRng i is the i-th spawn position; brainRng i the i-th randomly
initialised weight assignment (genetique's individuals carry no
brainGenome, so the Creature constructor always random-initialises). -/
def CreatureSystem.createGeneration (s : CreatureSystem)
    (posRng : ℕ → ℝ × ℝ) (brainRng : ℕ → (ℕ → ℕ → ℝ) × (ℕ → ℕ → ℝ)) : CreatureSystem :=
  let creatures := (List.range s.genetic.individuals.length).map fun i =>
    let ind := s.genetic.individuals.getD i dIndividual
    let c0 := Creature.init ind.genes (NeuralNetwork.make 5 4 2 (brainRng i).1 (brainRng i).2)
    CreatureRec.mk { c0 with x := (posRng i).1, y := (posRng i).2 } i 0 true
  { s with creatures := creatures,
           genetic := { s.genetic with
             individuals := s.genetic.individuals.map fun ind => { ind with fitness := some 0 } } }

/-- CreatureSystem.nextGeneration: select the indices of creatures that ate
at least once, run the genetic transition, then rebuild the creatures. -/
noncomputable def CreatureSystem.nextGeneration (s : CreatureSystem) (o : RandOracle)
    (posRng : ℕ → ℝ × ℝ) (brainRng : ℕ → (ℕ → ℕ → ℝ) × (ℕ → ℕ → ℝ)) : CreatureSystem :=
  let selection := (s.creatures.filter fun c => 0 < c.fitness).map fun c => c.index
  let g := s.genetic.nextGeneration selection o
  CreatureSystem.createGeneration { s with genetic := g } posRng brainRng

/-! ## Helper lemmas about list reads and writes -/

lemma getD_set_self {α : Type} (l : List α) (i : ℕ) (a d : α) (h : i < l.length) :
    (l.set i a).getD i d = a := by
  simp [List.getD_eq_getElem?_getD, List.getElem?_set_self h]

lemma getD_set_ne {α : Type} (l : List α) (i j : ℕ) (a d : α) (h : i ≠ j) :
    (l.set i a).getD j d = l.getD j d := by
  simp [List.getD_eq_getElem?_getD, List.getElem?_set_ne h]

/-! ## Facts about one creature step and the tick loop -/

lemma stepCreature_index (halfSize dt : ℝ) (foods : List Food) (inds : List Individual)
    (c : CreatureRec) (nx nz : ℝ) :
    (stepCreature halfSize dt foods inds c nx nz).1.index = c.index := by
  rcases ht : getNearestFood foods c.logic.x c.logic.y with _ | t
  · simp only [stepCreature, ht]
  · by_cases hd : t.1 < 1.5
    · simp only [stepCreature, ht, if_pos hd]
    · simp only [stepCreature, ht, if_neg hd]

lemma stepCreature_foods_length (halfSize dt : ℝ) (foods : List Food) (inds : List Individual)
    (c : CreatureRec) (nx nz : ℝ) :
    (stepCreature halfSize dt foods inds c nx nz).2.1.length = foods.length := by
  rcases ht : getNearestFood foods c.logic.x c.logic.y with _ | t
  · simp only [stepCreature, ht]
  · by_cases hd : t.1 < 1.5
    · simp only [stepCreature, ht, if_pos hd, List.length_set]
    · simp only [stepCreature, ht, if_neg hd]

lemma stepCreature_fitness_inds (halfSize dt : ℝ) (foods : List Food) (inds : List Individual)
    (c : CreatureRec) (nx nz : ℝ) :
    ((stepCreature halfSize dt foods inds c nx nz).1.fitness = c.fitness ∧
      (stepCreature halfSize dt foods inds c nx nz).2.2 = inds) ∨
    ((stepCreature halfSize dt foods inds c nx nz).1.fitness = c.fitness + 1 ∧
      (stepCreature halfSize dt foods inds c nx nz).2.2 =
        inds.set c.index
          { inds.getD c.index dIndividual with fitness := some (c.fitness + 1) }) := by
  rcases ht : getNearestFood foods c.logic.x c.logic.y with _ | t
  · exact Or.inl (by simp only [stepCreature, ht]; exact ⟨by trivial, by trivial⟩)
  · by_cases hd : t.1 < 1.5
    · exact Or.inr (by simp only [stepCreature, ht, if_pos hd]; exact ⟨by trivial, by trivial⟩)
    · exact Or.inl (by simp only [stepCreature, ht, if_neg hd]; exact ⟨by trivial, by trivial⟩)

lemma stepCreature_inds_length (halfSize dt : ℝ) (foods : List Food) (inds : List Individual)
    (c : CreatureRec) (nx nz : ℝ) :
    (stepCreature halfSize dt foods inds c nx nz).2.2.length = inds.length := by
  rcases stepCreature_fitness_inds halfSize dt foods inds c nx nz with ⟨_, h⟩ | ⟨_, h⟩ <;>
    simp [h]

lemma updateGo_basic (halfSize dt : ℝ) (rng : ℕ → ℝ × ℝ) :
    ∀ (cs : List CreatureRec) (k : ℕ) (foods : List Food) (inds : List Individual),
    (updateGo halfSize dt rng k cs foods inds).1.length = cs.length ∧
    (updateGo halfSize dt rng k cs foods inds).2.1.length = foods.length ∧
    (updateGo halfSize dt rng k cs foods inds).2.2.length = inds.length ∧
    ∀ j, j < cs.length →
      ((updateGo halfSize dt rng k cs foods inds).1.getD j dCreatureRec).index =
        (cs.getD j dCreatureRec).index ∧
      (((updateGo halfSize dt rng k cs foods inds).1.getD j dCreatureRec).fitness =
          (cs.getD j dCreatureRec).fitness ∨
        ((updateGo halfSize dt rng k cs foods inds).1.getD j dCreatureRec).fitness =
          (cs.getD j dCreatureRec).fitness + 1) := by
  intro cs
  induction cs with
  | nil =>
      intro k foods inds
      exact ⟨rfl, rfl, rfl, fun j hj => absurd hj (by simp)⟩
  | cons c cs ih =>
      intro k foods inds
      simp only [updateGo]
      obtain ⟨hlen1, hlen2, hlen3, hj⟩ :=
        ih (k + 1) (stepCreature halfSize dt foods inds c (rng k).1 (rng k).2).2.1
          (stepCreature halfSize dt foods inds c (rng k).1 (rng k).2).2.2
      refine ⟨by simp [hlen1], ?_, ?_, ?_⟩
      · rw [hlen2, stepCreature_foods_length]
      · rw [hlen3, stepCreature_inds_length]
      · intro j hjlt
        cases j with
        | zero =>
            refine ⟨?_, ?_⟩
            · simpa using stepCreature_index halfSize dt foods inds c (rng k).1 (rng k).2
            · rcases stepCreature_fitness_inds halfSize dt foods inds c (rng k).1 (rng k).2 with
                ⟨hf, _⟩ | ⟨hf, _⟩
              · exact Or.inl (by simpa using hf)
              · exact Or.inr (by simpa using hf)
        | succ j =>
            have hjlt2 : j < cs.length := by simpa using hjlt
            obtain ⟨h1, h2⟩ := hj j hjlt2
            exact ⟨by simpa using h1, by simpa using h2⟩

lemma updateGo_linked (halfSize dt : ℝ) (rng : ℕ → ℝ × ℝ) :
    ∀ (cs : List CreatureRec) (k : ℕ) (foods : List Food) (inds : List Individual),
    k + cs.length = inds.length →
    (∀ j, j < cs.length → (cs.getD j dCreatureRec).index = k + j) →
    (∀ j, j < cs.length →
      (inds.getD (k + j) dIndividual).fitness = some (cs.getD j dCreatureRec).fitness) →
    (∀ m, m < k →
      (updateGo halfSize dt rng k cs foods inds).2.2.getD m dIndividual =
        inds.getD m dIndividual) ∧
    (∀ j, j < cs.length →
      ((updateGo halfSize dt rng k cs foods inds).2.2.getD (k + j) dIndividual).fitness =
        some (((updateGo halfSize dt rng k cs foods inds).1.getD j dCreatureRec).fitness)) := by
  intro cs
  induction cs with
  | nil =>
      intro k foods inds _ _ _
      exact ⟨fun m _ => rfl, fun j hj => absurd hj (by simp)⟩
  | cons c cs ih =>
      intro k foods inds hlen hidx hfit
      have hcidx : c.index = k := by simpa using hidx 0 (by simp)
      have hklt : k < inds.length := by simp at hlen; omega
      set r := stepCreature halfSize dt foods inds c (rng k).1 (rng k).2 with hr
      have hinds1_ne : ∀ m, m ≠ k → r.2.2.getD m dIndividual = inds.getD m dIndividual := by
        intro m hm
        rcases stepCreature_fitness_inds halfSize dt foods inds c (rng k).1 (rng k).2 with
          ⟨_, h⟩ | ⟨_, h⟩
        · rw [← hr] at h; rw [h]
        · rw [← hr] at h; rw [h, hcidx, getD_set_ne _ _ _ _ _ (fun hk => hm hk.symm)]
      have hinds1_k : (r.2.2.getD k dIndividual).fitness = some r.1.fitness := by
        rcases stepCreature_fitness_inds halfSize dt foods inds c (rng k).1 (rng k).2 with
          ⟨hf, h⟩ | ⟨hf, h⟩
        · rw [← hr] at h hf
          rw [h, hf]
          simpa using hfit 0 (by simp)
        · rw [← hr] at h hf
          rw [h, hf, hcidx, getD_set_self _ _ _ _ hklt]
      have hlen1 : r.2.2.length = inds.length := stepCreature_inds_length _ _ _ _ _ _ _
      obtain ⟨ih1, ih2⟩ := ih (k + 1) r.2.1 r.2.2
        (by rw [hlen1]; simp at hlen ⊢; omega)
        (by intro j hj
            have := hidx (j + 1) (by simpa using Nat.succ_lt_succ hj)
            simpa [Nat.add_assoc, Nat.add_comm 1 j] using this)
        (by intro j hj
            rw [hinds1_ne (k + 1 + j) (by omega)]
            have := hfit (j + 1) (by simpa using Nat.succ_lt_succ hj)
            have harith : k + (j + 1) = k + 1 + j := by omega
            rw [harith] at this
            simpa using this)
      constructor
      · intro m hm
        have h1 : (updateGo halfSize dt rng k (c :: cs) foods inds).2.2 =
            (updateGo halfSize dt rng (k + 1) cs r.2.1 r.2.2).2.2 := by
          simp only [updateGo]
        rw [h1, ih1 m (by omega), hinds1_ne m (by omega)]
      · intro j hj
        have h1 : (updateGo halfSize dt rng k (c :: cs) foods inds).2.2 =
            (updateGo halfSize dt rng (k + 1) cs r.2.1 r.2.2).2.2 := by
          simp only [updateGo]
        have h2 : (updateGo halfSize dt rng k (c :: cs) foods inds).1 =
            r.1 :: (updateGo halfSize dt rng (k + 1) cs r.2.1 r.2.2).1 := by
          simp only [updateGo]
        cases j with
        | zero =>
            rw [h1, h2]
            have hk : (updateGo halfSize dt rng (k + 1) cs r.2.1 r.2.2).2.2.getD k dIndividual =
                r.2.2.getD k dIndividual := ih1 k (by omega)
            simp only [Nat.add_zero, List.getD_cons_zero]
            rw [hk]
            exact hinds1_k
        | succ j =>
            have hj2 : j < cs.length := by simpa using hj
            have harith : k + (j + 1) = k + 1 + j := by omega
            rw [h1, h2, harith]
            simpa using ih2 j hj2

/-- The creature-to-individual linkage CreatureSystem maintains inside one
generation: one creature per individual, creature i carries index i, and
the individual's fitness mirrors the creature's counter. -/
def linkInv (s : CreatureSystem) : Prop :=
  s.creatures.length = s.genetic.individuals.length ∧
  ∀ i, i < s.creatures.length →
    (s.creatures.getD i dCreatureRec).index = i ∧
    (s.genetic.individuals.getD i dIndividual).fitness =
      some (s.creatures.getD i dCreatureRec).fitness

lemma createGeneration_creatures_fitness (s : CreatureSystem) (posRng : ℕ → ℝ × ℝ)
    (brainRng : ℕ → (ℕ → ℕ → ℝ) × (ℕ → ℕ → ℝ)) :
    ∀ c ∈ (s.createGeneration posRng brainRng).creatures, c.fitness = 0 := by
  intro c hc
  simp only [CreatureSystem.createGeneration, List.mem_map] at hc
  obtain ⟨i, _, rfl⟩ := hc
  rfl

lemma createGeneration_inds_fitness (s : CreatureSystem) (posRng : ℕ → ℝ × ℝ)
    (brainRng : ℕ → (ℕ → ℕ → ℝ) × (ℕ → ℕ → ℝ)) :
    ∀ ind ∈ (s.createGeneration posRng brainRng).genetic.individuals,
      ind.fitness = some 0 := by
  intro ind hind
  simp only [CreatureSystem.createGeneration, List.mem_map] at hind
  obtain ⟨ind0, _, rfl⟩ := hind
  rfl

lemma linkInv_createGeneration (s : CreatureSystem) (posRng : ℕ → ℝ × ℝ)
    (brainRng : ℕ → (ℕ → ℕ → ℝ) × (ℕ → ℕ → ℝ)) :
    linkInv (s.createGeneration posRng brainRng) := by
  constructor
  · simp [CreatureSystem.createGeneration]
  · intro i hi
    simp only [CreatureSystem.createGeneration, List.length_map, List.length_range] at hi
    constructor
    · simp only [CreatureSystem.createGeneration]
      rw [List.getD_eq_getElem?_getD, List.getElem?_map, List.getElem?_range hi]
      rfl
    · simp only [CreatureSystem.createGeneration]
      simp [List.getD_eq_getElem?_getD, List.getElem?_map, List.getElem?_range hi,
        List.getElem?_eq_getElem hi]

lemma linkInv_update (s : CreatureSystem) (dt : ℝ) (rng : ℕ → ℝ × ℝ)
    (hinv : linkInv s) : linkInv (s.update dt rng) := by
  obtain ⟨hlen, hlink⟩ := hinv
  obtain ⟨hb1, hb2, hb3, hb4⟩ :=
    updateGo_basic (s.worldSize / 2 - 2) dt rng s.creatures 0 s.foods s.genetic.individuals
  obtain ⟨hl1, hl2⟩ :=
    updateGo_linked (s.worldSize / 2 - 2) dt rng s.creatures 0 s.foods s.genetic.individuals
      (by simpa using hlen)
      (by intro j hj; simpa using (hlink j hj).1)
      (by intro j hj; simpa using (hlink j hj).2)
  constructor
  · simp only [CreatureSystem.update]
    rw [hb1, hb3, hlen]
  · intro i hi
    simp only [CreatureSystem.update] at hi
    rw [hb1] at hi
    constructor
    · simp only [CreatureSystem.update]
      rw [(hb4 i hi).1, (hlink i hi).1]
    · simp only [CreatureSystem.update]
      simpa using hl2 i hi

/-- C10: the per-creature fitness counter and its linked Individual always
agree: createGeneration establishes the linkage invariant (index = array
position, both fitness values 0) and every update tick preserves it. -/
theorem fitness_link_invariant :
    (∀ (s : CreatureSystem) (posRng : ℕ → ℝ × ℝ)
        (brainRng : ℕ → (ℕ → ℕ → ℝ) × (ℕ → ℕ → ℝ)),
      linkInv (s.createGeneration posRng brainRng)) ∧
    (∀ (s : CreatureSystem) (dt : ℝ) (rng : ℕ → ℝ × ℝ),
      linkInv s → linkInv (s.update dt rng)) :=
  ⟨linkInv_createGeneration, linkInv_update⟩

theorem fitness_link_invariant_witness :
    linkInv ((CreatureSystem.mk 200 [] [] (Genetic.mk 4 10 0 [])).update 1 (fun _ => (0, 0))) :=
  fitness_link_invariant.2 (CreatureSystem.mk 200 [] [] (Genetic.mk 4 10 0 [])) 1
    (fun _ => (0, 0)) ⟨rfl, fun i hi => absurd hi (by simp)⟩

/-- C8: immediately after createGeneration every creature counter and every
Individual fitness is exactly 0; one update tick leaves each creature's
fitness unchanged or increments it by 1; under the linkage invariant every
Individual's fitness is non-decreasing across a tick; and the generational
transition (nextGeneration) resets every Individual's fitness to 0. -/
theorem fitness_zero_after_spawn_and_monotone :
    (∀ (s : CreatureSystem) (posRng : ℕ → ℝ × ℝ)
        (brainRng : ℕ → (ℕ → ℕ → ℝ) × (ℕ → ℕ → ℝ)),
      (∀ c ∈ (s.createGeneration posRng brainRng).creatures, c.fitness = 0) ∧
      (∀ ind ∈ (s.createGeneration posRng brainRng).genetic.individuals,
        ind.fitness = some 0)) ∧
    (∀ (s : CreatureSystem) (dt : ℝ) (rng : ℕ → ℝ × ℝ) (j : ℕ), j < s.creatures.length →
      ((s.update dt rng).creatures.getD j dCreatureRec).fitness =
          (s.creatures.getD j dCreatureRec).fitness ∨
        ((s.update dt rng).creatures.getD j dCreatureRec).fitness =
          (s.creatures.getD j dCreatureRec).fitness + 1) ∧
    (∀ (s : CreatureSystem) (dt : ℝ) (rng : ℕ → ℝ × ℝ), linkInv s →
      ∀ j, j < s.genetic.individuals.length →
        ∃ a b : ℕ,
          (s.genetic.individuals.getD j dIndividual).fitness = some a ∧
          ((s.update dt rng).genetic.individuals.getD j dIndividual).fitness = some b ∧
          a ≤ b) ∧
    (∀ (s : CreatureSystem) (o : RandOracle) (posRng : ℕ → ℝ × ℝ)
        (brainRng : ℕ → (ℕ → ℕ → ℝ) × (ℕ → ℕ → ℝ)),
      ∀ ind ∈ (s.nextGeneration o posRng brainRng).genetic.individuals,
        ind.fitness = some 0) := by
  refine ⟨?_, ?_, ?_, ?_⟩
  · intro s posRng brainRng
    exact ⟨createGeneration_creatures_fitness s posRng brainRng,
           createGeneration_inds_fitness s posRng brainRng⟩
  · intro s dt rng j hj
    obtain ⟨hb1, hb2, hb3, hb4⟩ :=
      updateGo_basic (s.worldSize / 2 - 2) dt rng s.creatures 0 s.foods s.genetic.individuals
    simpa only [CreatureSystem.update] using (hb4 j hj).2
  · intro s dt rng hinv j hj
    obtain ⟨hlen, hlink⟩ := hinv
    have hj2 : j < s.creatures.length := by omega
    obtain ⟨hb1, hb2, hb3, hb4⟩ :=
      updateGo_basic (s.worldSize / 2 - 2) dt rng s.creatures 0 s.foods s.genetic.individuals
    obtain ⟨hl1, hl2⟩ :=
      updateGo_linked (s.worldSize / 2 - 2) dt rng s.creatures 0 s.foods s.genetic.individuals
        (by simpa using hlen)
        (by intro i hi; simpa using (hlink i hi).1)
        (by intro i hi; simpa using (hlink i hi).2)
    refine ⟨(s.creatures.getD j dCreatureRec).fitness,
      ((updateGo (s.worldSize / 2 - 2) dt rng 0 s.creatures s.foods
        s.genetic.individuals).1.getD j dCreatureRec).fitness,
      (hlink j hj2).2, ?_, ?_⟩
    · simp only [CreatureSystem.update]
      simpa using hl2 j hj2
    · rcases (hb4 j hj2).2 with h | h <;> omega
  · intro s o posRng brainRng ind hind
    simp only [CreatureSystem.nextGeneration] at hind
    exact createGeneration_inds_fitness _ _ _ ind hind

theorem fitness_zero_after_spawn_and_monotone_witness :
    (((CreatureSystem.mk 200 [dCreatureRec] [] (Genetic.mk 1 10 0 [])).update 1
        (fun _ => (0, 0))).creatures.getD 0 dCreatureRec).fitness =
      ((CreatureSystem.mk 200 [dCreatureRec] [] (Genetic.mk 1 10 0
        [])).creatures.getD 0 dCreatureRec).fitness ∨
    (((CreatureSystem.mk 200 [dCreatureRec] [] (Genetic.mk 1 10 0 [])).update 1
        (fun _ => (0, 0))).creatures.getD 0 dCreatureRec).fitness =
      ((CreatureSystem.mk 200 [dCreatureRec] [] (Genetic.mk 1 10 0
        [])).creatures.getD 0 dCreatureRec).fitness + 1 :=
  fitness_zero_after_spawn_and_monotone.2.1
    (CreatureSystem.mk 200 [dCreatureRec] [] (Genetic.mk 1 10 0 [])) 1
    (fun _ => (0, 0)) 0 (by simp)

/-! ## Concrete evaluation helpers -/

/-- A 5-4-2 brain whose weights are all zero: both outputs are tanh 0 = 0,
so the creature neither turns nor accelerates. -/
def zeroBrain : NeuralNetwork := NeuralNetwork.make 5 4 2 (fun _ _ => 0) (fun _ _ => 0)

lemma zeroBrain_compute (inputs : List ℝ) (h : inputs.length = 5) :
    zeroBrain.compute inputs = [0, 0] := by
  have hcond : ¬ inputs.length ≠ zeroBrain.nbInput - 1 := by
    simp [zeroBrain, NeuralNetwork.make, h]
  rw [NeuralNetwork.compute, if_neg hcond]
  simp [zeroBrain, NeuralNetwork.make, NeuralNetwork.sigmoid, sumLoop_eq_sum,
    List.range_succ]

lemma update_zeroBrain (c : Creature) (hb : c.brain = zeroBrain) (hs : c.speed = 0) (dt : ℝ) :
    c.update dt = { c with speedX := 0, speedY := 0, energy := c.energy - 0.02 } := by
  rw [Creature.update, hb, zeroBrain_compute _ (by simp)]
  simp [hs]

lemma getNearestFood_single (f : Food) (x z : ℝ) (h : f.active = true) :
    getNearestFood [f] x z = some (distTo f x z, 0) := by
  simp [getNearestFood, nearestFoodGo, List.enum, List.enumFrom, h]

lemma nearest_food_unit : getNearestFood [Food.mk 1 0 true] (0 : ℝ) (0 : ℝ) = some (1, 0) := by
  have h1 := getNearestFood_single (Food.mk 1 0 true) 0 0 rfl
  have h2 : distTo (Food.mk 1 0 true) 0 0 = 1 := by
    rw [distTo]
    norm_num
  rwa [h2] at h1

lemma sqrt_not_lt_pickup (x : ℝ) (h : (2.25 : ℝ) ≤ x) : ¬ (Real.sqrt x < 1.5) := by
  rw [not_lt]
  have h15 : (1.5 : ℝ) = Real.sqrt 2.25 := by
    rw [show (2.25 : ℝ) = 1.5 ^ 2 by norm_num, Real.sqrt_sq (by norm_num)]
  rw [h15]
  exact Real.sqrt_le_sqrt h

lemma stepCreature_eats_proj (halfSize dt : ℝ) (foods : List Food) (inds : List Individual)
    (c : CreatureRec) (nx nz : ℝ) (t : ℝ × ℕ)
    (ht : getNearestFood foods c.logic.x c.logic.y = some t) (hd : t.1 < 1.5) :
    (stepCreature halfSize dt foods inds c nx nz).1.fitness = c.fitness + 1 ∧
    (stepCreature halfSize dt foods inds c nx nz).1.logic.energy =
      (Creature.update { c.logic with distanceFood := t.1 } (dt * 20)).energy + 30 ∧
    (stepCreature halfSize dt foods inds c nx nz).2.1 =
      foods.set t.2 (eatFoodRelocate (foods.getD t.2 dFood) nx nz) ∧
    (stepCreature halfSize dt foods inds c nx nz).2.2 =
      inds.set c.index
        { inds.getD c.index dIndividual with fitness := some (c.fitness + 1) } := by
  simp only [stepCreature, ht, if_pos hd]
  exact ⟨by trivial, by trivial, by trivial, by trivial⟩

lemma stepCreature_noEat_proj (halfSize dt : ℝ) (foods : List Food) (inds : List Individual)
    (c : CreatureRec) (nx nz : ℝ) (t : ℝ × ℕ)
    (ht : getNearestFood foods c.logic.x c.logic.y = some t) (hd : ¬ t.1 < 1.5) :
    (stepCreature halfSize dt foods inds c nx nz).2.1 = foods ∧
    (stepCreature halfSize dt foods inds c nx nz).2.2 = inds := by
  simp only [stepCreature, ht, if_neg hd]
  exact ⟨by trivial, by trivial⟩

lemma updateGo_cons_creature0 (halfSize dt : ℝ) (rng : ℕ → ℝ × ℝ) (k : ℕ)
    (c : CreatureRec) (cs : List CreatureRec) (foods : List Food) (inds : List Individual) :
    (updateGo halfSize dt rng k (c :: cs) foods inds).1.getD 0 dCreatureRec =
      (stepCreature halfSize dt foods inds c (rng k).1 (rng k).2).1 := by
  simp only [updateGo, List.getD_cons_zero]

lemma updateGo_cons_foods (halfSize dt : ℝ) (rng : ℕ → ℝ × ℝ) (k : ℕ)
    (c : CreatureRec) (cs : List CreatureRec) (foods : List Food) (inds : List Individual) :
    (updateGo halfSize dt rng k (c :: cs) foods inds).2.1 =
      (updateGo halfSize dt rng (k + 1) cs
        (stepCreature halfSize dt foods inds c (rng k).1 (rng k).2).2.1
        (stepCreature halfSize dt foods inds c (rng k).1 (rng k).2).2.2).2.1 := by
  simp only [updateGo]

lemma updateGo_nil_foods (halfSize dt : ℝ) (rng : ℕ → ℝ × ℝ) (k : ℕ)
    (foods : List Food) (inds : List Individual) :
    (updateGo halfSize dt rng k [] foods inds).2.1 = foods := rfl

/-! ## Concrete scenarios -/

/-- A creature record whose creature has zero-weight brain, zero speed and
heading, sits at the origin, and has already exhausted its energy. -/
def c1Creature : CreatureRec :=
  ⟨{ Creature.init [] zeroBrain with energy := 0 }, 0, 0, true⟩

/-- A one-creature system whose exhausted creature sits at distance 1 from
the only food item. -/
def c1System : CreatureSystem :=
  ⟨200, [c1Creature], [Food.mk 1 0 true], Genetic.mk 1 10 0 [Individual.mk [] (some 0)]⟩

lemma c1_nearest :
    getNearestFood c1System.foods c1Creature.logic.x c1Creature.logic.y = some (1, 0) :=
  nearest_food_unit

lemma c1_creature_logic_energy : c1Creature.logic.energy = 0 := rfl

/-- Counterexample to C1 as stated: a creature whose energy is 0 is not
excluded from the next CreatureSystem.update tick: its fitness still
increments when it sits inside the pickup radius, and its energy changes
(0 - 0.02 + 30 = 29.98). -/
theorem dead_creature_still_updates_counterexample :
    c1Creature.logic.energy ≤ 0 ∧
    ((c1System.update 1 (fun _ => ((5 : ℝ), (5 : ℝ)))).creatures.getD 0
      dCreatureRec).fitness = 1 ∧
    ((c1System.update 1 (fun _ => ((5 : ℝ), (5 : ℝ)))).creatures.getD 0
      dCreatureRec).logic.energy ≠ c1Creature.logic.energy := by
  have hproj := stepCreature_eats_proj ((200 : ℝ) / 2 - 2) 1 c1System.foods
    c1System.genetic.individuals c1Creature 5 5 (1, 0) c1_nearest (by norm_num)
  have hcre : (c1System.update 1 (fun _ => ((5 : ℝ), (5 : ℝ)))).creatures.getD 0 dCreatureRec =
      (stepCreature ((200 : ℝ) / 2 - 2) 1 c1System.foods c1System.genetic.individuals
        c1Creature 5 5).1 := by
    simp only [CreatureSystem.update, c1System]
    exact updateGo_cons_creature0 _ _ _ _ _ _ _ _
  refine ⟨le_of_eq c1_creature_logic_energy, ?_, ?_⟩
  · rw [hcre, hproj.1]
    rfl
  · rw [hcre, hproj.2.1,
      update_zeroBrain { c1Creature.logic with distanceFood := 1 } rfl rfl (1 * 20)]
    norm_num [c1Creature, Creature.init]

/-- C1 amended: a creature whose energy is at most 0 is not excluded from
anything but rendering: the next tick still processes it, it can still
trigger eatFood and gain fitness, and it stays in the creatures array. -/
theorem dead_creature_still_updates_amended (s : CreatureSystem) (dt : ℝ) (rng : ℕ → ℝ × ℝ)
    (c0 : CreatureRec) (rest : List CreatureRec) (hcs : s.creatures = c0 :: rest)
    (hdead : c0.logic.energy ≤ 0) (t : ℝ × ℕ)
    (ht : getNearestFood s.foods c0.logic.x c0.logic.y = some t) (hd : t.1 < 1.5) :
    (s.update dt rng).creatures.length = s.creatures.length ∧
    ((s.update dt rng).creatures.getD 0 dCreatureRec).fitness = c0.fitness + 1 := by
  constructor
  · obtain ⟨hb1, _, _, _⟩ := updateGo_basic (s.worldSize / 2 - 2) dt rng s.creatures 0
      s.foods s.genetic.individuals
    simpa only [CreatureSystem.update] using hb1
  · simp only [CreatureSystem.update, hcs]
    rw [updateGo_cons_creature0]
    exact (stepCreature_eats_proj _ dt s.foods s.genetic.individuals c0
      (rng 0).1 (rng 0).2 t ht hd).1

theorem dead_creature_still_updates_amended_witness :
    (c1System.update 1 (fun _ => ((5 : ℝ), (5 : ℝ)))).creatures.length =
      c1System.creatures.length ∧
    ((c1System.update 1 (fun _ => ((5 : ℝ), (5 : ℝ)))).creatures.getD 0
      dCreatureRec).fitness = c1Creature.fitness + 1 :=
  dead_creature_still_updates_amended c1System 1 (fun _ => ((5 : ℝ), (5 : ℝ)))
    c1Creature [] rfl (le_of_eq c1_creature_logic_energy) (1, 0) c1_nearest (by norm_num)

/-- Scenario A eater: zero-weight brain, full energy, sitting at the origin
at distance 1 from the food. -/
def c2Eater : CreatureRec := ⟨Creature.init [] zeroBrain, 0, 0, true⟩

/-- Scenario A bystander i: same brain, placed far from both the original
and the relocated food item. -/
def c2FarRec (i : ℕ) : CreatureRec :=
  ⟨{ Creature.init [] zeroBrain with x := 90, y := 90 }, i, 0, true⟩

def c2Inds : List Individual :=
  [Individual.mk [] (some 0), Individual.mk [] (some 0), Individual.mk [] (some 0),
    Individual.mk [] (some 0)]

/-- Scenario A of the specification: populationSize 4, foodCount 1 at a
known position, one creature inside the pickup radius. -/
def c2System : CreatureSystem :=
  ⟨200, [c2Eater, c2FarRec 1, c2FarRec 2, c2FarRec 3], [Food.mk 1 0 true],
    Genetic.mk 4 10 0 c2Inds⟩

lemma c2_far_not_pickup : ¬ (distTo (Food.mk 5 5 true) 90 90 < 1.5) := by
  have hd : distTo (Food.mk 5 5 true) 90 90 = Real.sqrt 14450 := by
    rw [distTo]; norm_num
  rw [hd]
  exact sqrt_not_lt_pickup 14450 (by norm_num)

lemma c2_far_step (halfSize : ℝ) (inds : List Individual) (i : ℕ) (nx nz : ℝ) :
    (stepCreature halfSize 1 [Food.mk 5 5 true] inds (c2FarRec i) nx nz).2.1 =
      [Food.mk 5 5 true] ∧
    (stepCreature halfSize 1 [Food.mk 5 5 true] inds (c2FarRec i) nx nz).2.2 = inds :=
  stepCreature_noEat_proj halfSize 1 [Food.mk 5 5 true] inds (c2FarRec i) nx nz
    (distTo (Food.mk 5 5 true) 90 90, 0)
    (getNearestFood_single (Food.mk 5 5 true) 90 90 rfl)
    c2_far_not_pickup

lemma c2_eval :
    ((c2System.update 1 (fun _ => ((5 : ℝ), (5 : ℝ)))).creatures.getD 0 dCreatureRec).fitness
      = 1 ∧
    ((c2System.update 1 (fun _ => ((5 : ℝ), (5 : ℝ)))).creatures.getD 0
        dCreatureRec).logic.energy = 100 - 0.02 + 30 ∧
    (c2System.update 1 (fun _ => ((5 : ℝ), (5 : ℝ)))).foods = [Food.mk 5 5 true] := by
  have hE := stepCreature_eats_proj ((200 : ℝ) / 2 - 2) 1 [Food.mk 1 0 true] c2Inds c2Eater
    5 5 (1, 0) nearest_food_unit (by norm_num)
  have hfoods1 : (stepCreature ((200 : ℝ) / 2 - 2) 1 [Food.mk 1 0 true] c2Inds c2Eater
      5 5).2.1 = [Food.mk 5 5 true] := by
    rw [hE.2.2.1]
    rfl
  have hinds1 : (stepCreature ((200 : ℝ) / 2 - 2) 1 [Food.mk 1 0 true] c2Inds c2Eater
      5 5).2.2 = [Individual.mk [] (some 1), Individual.mk [] (some 0),
        Individual.mk [] (some 0), Individual.mk [] (some 0)] := by
    rw [hE.2.2.2]
    rfl
  have hcre0 : (c2System.update 1 (fun _ => ((5 : ℝ), (5 : ℝ)))).creatures.getD 0 dCreatureRec =
      (stepCreature ((200 : ℝ) / 2 - 2) 1 [Food.mk 1 0 true] c2Inds c2Eater 5 5).1 := by
    simp only [CreatureSystem.update, c2System]
    have h := updateGo_cons_creature0 ((200 : ℝ) / 2 - 2) 1 (fun _ => ((5 : ℝ), (5 : ℝ))) 0
      c2Eater [c2FarRec 1, c2FarRec 2, c2FarRec 3] [Food.mk 1 0 true] c2Inds
    simpa using h
  have hfoodsAll : (c2System.update 1 (fun _ => ((5 : ℝ), (5 : ℝ)))).foods =
      [Food.mk 5 5 true] := by
    simp only [CreatureSystem.update, c2System, updateGo]
    rw [hfoods1, hinds1,
      (c2_far_step ((200 : ℝ) / 2 - 2) [Individual.mk [] (some 1), Individual.mk [] (some 0),
        Individual.mk [] (some 0), Individual.mk [] (some 0)] 1 5 5).1,
      (c2_far_step ((200 : ℝ) / 2 - 2) [Individual.mk [] (some 1), Individual.mk [] (some 0),
        Individual.mk [] (some 0), Individual.mk [] (some 0)] 1 5 5).2,
      (c2_far_step ((200 : ℝ) / 2 - 2) [Individual.mk [] (some 1), Individual.mk [] (some 0),
        Individual.mk [] (some 0), Individual.mk [] (some 0)] 2 5 5).1,
      (c2_far_step ((200 : ℝ) / 2 - 2) [Individual.mk [] (some 1), Individual.mk [] (some 0),
        Individual.mk [] (some 0), Individual.mk [] (some 0)] 2 5 5).2,
      (c2_far_step ((200 : ℝ) / 2 - 2) [Individual.mk [] (some 1), Individual.mk [] (some 0),
        Individual.mk [] (some 0), Individual.mk [] (some 0)] 3 5 5).1]
  refine ⟨?_, ?_, hfoodsAll⟩
  · rw [hcre0, hE.1]
    rfl
  · rw [hcre0, hE.2.1,
      update_zeroBrain { c2Eater.logic with distanceFood := (1 : ℝ) } rfl rfl (1 * 20)]
    norm_num [c2Eater, Creature.init]

/-- Counterexample to C2 as stated: in the exact Scenario A setting
(populationSize 4, one food item, the first creature at distance 1 < 1.5
from it) the eater's energy after the tick is 100 - 0.02 + 30, not
100 + 30: the same tick's Creature.update deducts the metabolic cost
before eatFood adds 30. -/
theorem scenario_a_energy_counterexample :
    c2System.genetic.populationSize = 4 ∧
    c2System.foods.length = 1 ∧
    getNearestFood c2System.foods (c2System.creatures.getD 0 dCreatureRec).logic.x
      (c2System.creatures.getD 0 dCreatureRec).logic.y = some (1, 0) ∧
    (1 : ℝ) < 1.5 ∧
    ((c2System.update 1 (fun _ => ((5 : ℝ), (5 : ℝ)))).creatures.getD 0
        dCreatureRec).logic.energy ≠
      (c2System.creatures.getD 0 dCreatureRec).logic.energy + 30 := by
  refine ⟨rfl, rfl, nearest_food_unit, by norm_num, ?_⟩
  rw [c2_eval.2.1]
  norm_num [c2System, c2Eater, Creature.init]

/-- C2 amended: in Scenario A, after one tick the eater's fitness is 1, the
food pool size is unchanged, the item is active again at a changed
position, and the eater's energy rose by exactly 30 minus the tick's
metabolic cost 0.02 + |speed| * 0.002 (speed stays 0 under a zero-weight
brain). -/
theorem scenario_a_amended :
    ((c2System.update 1 (fun _ => ((5 : ℝ), (5 : ℝ)))).creatures.getD 0 dCreatureRec).fitness
      = 1 ∧
    (c2System.update 1 (fun _ => ((5 : ℝ), (5 : ℝ)))).foods.length = c2System.foods.length ∧
    ((c2System.update 1 (fun _ => ((5 : ℝ), (5 : ℝ)))).foods.getD 0 dFood).active = true ∧
    ((c2System.update 1 (fun _ => ((5 : ℝ), (5 : ℝ)))).foods.getD 0 dFood).x ≠
      (c2System.foods.getD 0 dFood).x ∧
    ((c2System.update 1 (fun _ => ((5 : ℝ), (5 : ℝ)))).creatures.getD 0
        dCreatureRec).logic.energy =
      (c2System.creatures.getD 0 dCreatureRec).logic.energy + 30 -
        (0.02 + |(0 : ℝ)| * 0.002) := by
  obtain ⟨hfit, hen, hfoods⟩ := c2_eval
  refine ⟨hfit, ?_, ?_, ?_, ?_⟩
  · rw [hfoods]
    rfl
  · rw [hfoods]
    rfl
  · rw [hfoods]
    norm_num [c2System]
  · rw [hen]
    norm_num [c2System, c2Eater, Creature.init]

/-! ## Reference-level model of the weight-matrix heap (for exportGenome
and the constructor's handling of a supplied weights object).

A JS weight matrix is an array of row arrays: mutation of an entry mutates
a row object, and assignment copies references.  The heap stores row
objects and matrix objects (arrays of row references); a network or a
weights object holds two matrix references. -/

structure Heap where
  rows : List (List ℝ)
  mats : List (List ℕ)

/-- Read entry (i, j) of the matrix behind reference m. -/
def readEntry (h : Heap) (m i j : ℕ) : ℝ :=
  (h.rows.getD ((h.mats.getD m []).getD i 0) []).getD j 0

/-- w[i][j] = v: mutate the row object the matrix's i-th slot points to. -/
def writeEntry (h : Heap) (m i j : ℕ) (v : ℝ) : Heap :=
  { h with rows := h.rows.set ((h.mats.getD m []).getD i 0) ((h.rows.getD ((h.mats.getD m []).getD i 0) []).set j v) }

/-- this.w1.map(row => [...row]): allocate one fresh row object per row
with the same contents, then a fresh outer array holding the new row
references; returns the extended heap and the new matrix reference. -/
def copyMat (h : Heap) (m : ℕ) : Heap × ℕ :=
  (⟨h.rows ++ (h.mats.getD m []).map (fun r => h.rows.getD r []),
    h.mats ++ [(List.range (h.mats.getD m []).length).map fun k => h.rows.length + k]⟩,
   h.mats.length)

/-- The two matrix references a network (or a weights object) holds. -/
structure NNRefs where
  w1 : ℕ
  w2 : ℕ

/-- The constructor branch for a supplied weights object: this.w1 =
weights.w1 and this.w2 = weights.w2 store the references; nothing is
copied. -/
def buildFromWeights (w : NNRefs) : NNRefs := ⟨w.w1, w.w2⟩

/-- exportGenome: return an object holding deep copies of both matrices. -/
def exportGenomeH (h : Heap) (net : NNRefs) : Heap × NNRefs :=
  ((copyMat (copyMat h net.w1).1 net.w2).1,
   ⟨(copyMat h net.w1).2, (copyMat (copyMat h net.w1).1 net.w2).2⟩)

/-- A matrix reference is well formed when it points into the matrix store
and all its row references point into the row store. -/
def matWF (h : Heap) (m : ℕ) : Prop :=
  m < h.mats.length ∧ ∀ r ∈ h.mats.getD m [], r < h.rows.length

lemma getD_mem {α : Type} {l : List α} {i : ℕ} (d : α) (h : i < l.length) : l.getD i d ∈ l := by
  have heq : l.getD i d = l[i] := by
    simp [List.getD_eq_getElem?_getD, List.getElem?_eq_getElem h]
  rw [heq]
  exact List.getElem_mem h

lemma getD_append_left {α : Type} (l l2 : List α) (i : ℕ) (d : α) (h : i < l.length) :
    (l ++ l2).getD i d = l.getD i d := by
  simp [List.getD_eq_getElem?_getD, List.getElem?_append_left h]

lemma getD_concat_self {α : Type} (l : List α) (x d : α) :
    (l ++ [x]).getD l.length d = x := by
  simp [List.getD_eq_getElem?_getD, List.getElem?_append_right (le_refl l.length)]

lemma getD_append_offset {α : Type} (l l2 : List α) (k : ℕ) (d : α) :
    (l ++ l2).getD (l.length + k) d = l2.getD k d := by
  simp [List.getD_eq_getElem?_getD, List.getElem?_append_right (Nat.le_add_right l.length k)]

lemma copyMat_mats_getD_old (h : Heap) (m m0 : ℕ) (hm0 : m0 < h.mats.length) :
    (copyMat h m).1.mats.getD m0 [] = h.mats.getD m0 [] :=
  getD_append_left _ _ _ _ hm0

lemma copyMat_rows_getD_old (h : Heap) (m r : ℕ) (hr : r < h.rows.length) :
    (copyMat h m).1.rows.getD r [] = h.rows.getD r [] :=
  getD_append_left _ _ _ _ hr

lemma copyMat_mats_length (h : Heap) (m : ℕ) :
    (copyMat h m).1.mats.length = h.mats.length + 1 := by
  simp [copyMat]

lemma copyMat_rows_length (h : Heap) (m : ℕ) :
    (copyMat h m).1.rows.length = h.rows.length + (h.mats.getD m []).length := by
  simp [copyMat]

lemma copyMat_new_refs (h : Heap) (m : ℕ) :
    (copyMat h m).1.mats.getD (copyMat h m).2 [] =
      (List.range (h.mats.getD m []).length).map fun k => h.rows.length + k :=
  getD_concat_self _ _ _

lemma copyMat_new_count (h : Heap) (m : ℕ) :
    ((copyMat h m).1.mats.getD (copyMat h m).2 []).length = (h.mats.getD m []).length := by
  rw [copyMat_new_refs]
  simp

lemma copyMat_new_ref_getD (h : Heap) (m k : ℕ) (hk : k < (h.mats.getD m []).length) :
    ((copyMat h m).1.mats.getD (copyMat h m).2 []).getD k 0 = h.rows.length + k := by
  rw [copyMat_new_refs]
  simp only [List.getD_eq_getElem?_getD] at hk ⊢
  rw [List.getElem?_map, List.getElem?_range hk]
  rfl

lemma copyMat_new_row (h : Heap) (m k : ℕ) (hk : k < (h.mats.getD m []).length) :
    (copyMat h m).1.rows.getD (h.rows.length + k) [] =
      h.rows.getD ((h.mats.getD m []).getD k 0) [] := by
  have h1 : (copyMat h m).1.rows =
      h.rows ++ (h.mats.getD m []).map (fun r => h.rows.getD r []) := rfl
  rw [h1, getD_append_offset]
  simp only [List.getD_eq_getElem?_getD] at hk ⊢
  rw [List.getElem?_map, List.getElem?_eq_getElem hk]
  rfl

lemma copyMat_read (h : Heap) (m k j : ℕ) (hk : k < (h.mats.getD m []).length) :
    readEntry (copyMat h m).1 (copyMat h m).2 k j = readEntry h m k j := by
  rw [readEntry, readEntry, copyMat_new_ref_getD h m k hk, copyMat_new_row h m k hk]

lemma copyMat_read_old (h : Heap) (m m0 i j : ℕ) (hwf : matWF h m0)
    (hi : i < (h.mats.getD m0 []).length) :
    readEntry (copyMat h m).1 m0 i j = readEntry h m0 i j := by
  obtain ⟨h1, h2⟩ := hwf
  rw [readEntry, readEntry, copyMat_mats_getD_old h m m0 h1,
    copyMat_rows_getD_old h m _ (h2 _ (getD_mem 0 hi))]

lemma matWF_copyMat_old (h : Heap) (m m0 : ℕ) (hwf : matWF h m0) :
    matWF (copyMat h m).1 m0 := by
  obtain ⟨h1, h2⟩ := hwf
  refine ⟨by rw [copyMat_mats_length]; omega, ?_⟩
  intro r hr
  rw [copyMat_mats_getD_old h m m0 h1] at hr
  have := h2 r hr
  rw [copyMat_rows_length]
  omega

lemma matWF_copyMat_new (h : Heap) (m : ℕ) :
    matWF (copyMat h m).1 (copyMat h m).2 := by
  refine ⟨by rw [copyMat_mats_length]; exact Nat.lt_succ_self _, ?_⟩
  intro r hr
  rw [copyMat_new_refs] at hr
  rw [List.mem_map] at hr
  obtain ⟨k, hk, rfl⟩ := hr
  rw [List.mem_range] at hk
  rw [copyMat_rows_length]
  omega

lemma writeEntry_preserves (h : Heap) (mW m0 i j i0 j0 : ℕ) (v : ℝ)
    (hne : (h.mats.getD mW []).getD i 0 ≠ (h.mats.getD m0 []).getD i0 0) :
    readEntry (writeEntry h mW i j v) m0 i0 j0 = readEntry h m0 i0 j0 := by
  simp only [readEntry, writeEntry]
  rw [getD_set_ne _ _ _ _ _ hne]

lemma copyMat_ref (h : Heap) (m : ℕ) : (copyMat h m).2 = h.mats.length := rfl

/-- C9 amended: exportGenome returns fresh matrix references whose contents
equal the originals, and writing any entry through the returned references
leaves the network's own matrices unchanged (a deep copy); the constructor,
however, stores a supplied weights object's references verbatim. -/
theorem exportGenome_deep_copy (h : Heap) (net : NNRefs)
    (hwf1 : matWF h net.w1) (hwf2 : matWF h net.w2) :
    ((exportGenomeH h net).2.w1 ≠ net.w1 ∧ (exportGenomeH h net).2.w2 ≠ net.w2) ∧
    (∀ i j, i < (h.mats.getD net.w1 []).length →
      readEntry (exportGenomeH h net).1 (exportGenomeH h net).2.w1 i j =
        readEntry h net.w1 i j) ∧
    (∀ i j, i < (h.mats.getD net.w2 []).length →
      readEntry (exportGenomeH h net).1 (exportGenomeH h net).2.w2 i j =
        readEntry h net.w2 i j) ∧
    (∀ i j v i0 j0, i < (h.mats.getD net.w1 []).length →
      i0 < (h.mats.getD net.w1 []).length →
      readEntry (writeEntry (exportGenomeH h net).1 (exportGenomeH h net).2.w1 i j v)
        net.w1 i0 j0 = readEntry (exportGenomeH h net).1 net.w1 i0 j0) ∧
    (∀ i j v i0 j0, i < (h.mats.getD net.w2 []).length →
      i0 < (h.mats.getD net.w2 []).length →
      readEntry (writeEntry (exportGenomeH h net).1 (exportGenomeH h net).2.w2 i j v)
        net.w2 i0 j0 = readEntry (exportGenomeH h net).1 net.w2 i0 j0) ∧
    (∀ w : NNRefs, buildFromWeights w = w) := by
  have hEw1 : (exportGenomeH h net).2.w1 = (copyMat h net.w1).2 := rfl
  have hEw2 : (exportGenomeH h net).2.w2 = (copyMat (copyMat h net.w1).1 net.w2).2 := rfl
  have hE1 : (exportGenomeH h net).1 = (copyMat (copyMat h net.w1).1 net.w2).1 := rfl
  have hm1lt : net.w1 < h.mats.length := hwf1.1
  have hm2lt : net.w2 < h.mats.length := hwf2.1
  have hm1lt1 : (copyMat h net.w1).2 < (copyMat h net.w1).1.mats.length := by
    rw [copyMat_ref, copyMat_mats_length]
    omega
  refine ⟨⟨?_, ?_⟩, ?_, ?_, ?_, ?_, fun w => rfl⟩
  · rw [hEw1, copyMat_ref]
    omega
  · rw [hEw2, copyMat_ref, copyMat_mats_length]
    omega
  · intro i j hi
    rw [hE1, hEw1]
    calc readEntry (copyMat (copyMat h net.w1).1 net.w2).1 (copyMat h net.w1).2 i j
        = readEntry (copyMat h net.w1).1 (copyMat h net.w1).2 i j :=
          copyMat_read_old _ _ _ _ _ (matWF_copyMat_new h net.w1)
            (by rw [copyMat_new_count]; exact hi)
      _ = readEntry h net.w1 i j := copyMat_read h net.w1 i j hi
  · intro i j hi
    rw [hE1, hEw2]
    calc readEntry (copyMat (copyMat h net.w1).1 net.w2).1
          (copyMat (copyMat h net.w1).1 net.w2).2 i j
        = readEntry (copyMat h net.w1).1 net.w2 i j :=
          copyMat_read _ _ i j (by rw [copyMat_mats_getD_old h net.w1 net.w2 hm2lt]; exact hi)
      _ = readEntry h net.w2 i j := copyMat_read_old h net.w1 net.w2 i j hwf2 hi
  · intro i j v i0 j0 hi hi0
    rw [hE1, hEw1]
    apply writeEntry_preserves
    have hA : ((copyMat (copyMat h net.w1).1 net.w2).1.mats.getD
        (copyMat h net.w1).2 []).getD i 0 = h.rows.length + i := by
      rw [copyMat_mats_getD_old _ net.w2 _ hm1lt1]
      exact copyMat_new_ref_getD h net.w1 i hi
    have hB : ((copyMat (copyMat h net.w1).1 net.w2).1.mats.getD net.w1 []).getD i0 0 <
        h.rows.length := by
      rw [copyMat_mats_getD_old _ net.w2 net.w1 (by rw [copyMat_mats_length]; omega),
          copyMat_mats_getD_old h net.w1 net.w1 hm1lt]
      exact hwf1.2 _ (getD_mem 0 hi0)
    rw [hA]
    omega
  · intro i j v i0 j0 hi hi0
    rw [hE1, hEw2]
    apply writeEntry_preserves
    have hA : ((copyMat (copyMat h net.w1).1 net.w2).1.mats.getD
        (copyMat (copyMat h net.w1).1 net.w2).2 []).getD i 0 =
        (copyMat h net.w1).1.rows.length + i :=
      copyMat_new_ref_getD (copyMat h net.w1).1 net.w2 i
        (by rw [copyMat_mats_getD_old h net.w1 net.w2 hm2lt]; exact hi)
    have hrows1 : (copyMat h net.w1).1.rows.length =
        h.rows.length + (h.mats.getD net.w1 []).length := copyMat_rows_length h net.w1
    have hB : ((copyMat (copyMat h net.w1).1 net.w2).1.mats.getD net.w2 []).getD i0 0 <
        h.rows.length := by
      rw [copyMat_mats_getD_old _ net.w2 net.w2 (by rw [copyMat_mats_length]; omega),
          copyMat_mats_getD_old h net.w1 net.w2 hm2lt]
      exact hwf2.2 _ (getD_mem 0 hi0)
    rw [hA, hrows1]
    omega

/-- A two-row heap holding two one-element matrices, and a weights object
referring to them. -/
def c9Heap : Heap := ⟨[[1], [2]], [[0], [1]]⟩

def c9Weights : NNRefs := ⟨0, 1⟩

/-- Counterexample to C9 as stated: the constructor stores a supplied
weights object's matrix references without copying, so a network built
from that object shares structure with it (and with any other network
built from the same object): writing entry (0,0) through the network's w1
changes the value read through the shared reference from 1 to 99. -/
theorem constructor_shares_weights_counterexample :
    (buildFromWeights c9Weights).w1 = c9Weights.w1 ∧
    readEntry c9Heap c9Weights.w1 0 0 = 1 ∧
    readEntry (writeEntry c9Heap (buildFromWeights c9Weights).w1 0 0 99) c9Weights.w1 0 0 =
      99 ∧
    (99 : ℝ) ≠ 1 := by
  refine ⟨rfl, rfl, rfl, by norm_num⟩

theorem exportGenome_deep_copy_witness :
    readEntry (exportGenomeH c9Heap c9Weights).1 (exportGenomeH c9Heap c9Weights).2.w1 0 0 =
      readEntry c9Heap c9Weights.w1 0 0 :=
  (exportGenome_deep_copy c9Heap c9Weights ⟨by decide, by decide⟩
    ⟨by decide, by decide⟩).2.1 0 0 (by decide)
